import Mathlib

/-!
Verification development for the musicroast interactive OAuth session
subsystem (`app/services/yandex_oauth.py`, `app/services/yandex_interactive.py`,
`app/__init__.py`).

Strings are modelled as `List Char`; Python string operations (`split`,
`find`, `startswith`, `replace`, slicing, `in`, `int(...)`) are embedded as
executable functions below, faithful to CPython semantics on the inputs the
code can produce.
-/

/-- Python `s.startswith(pre)` on character lists. -/
def listStarts (pre : List Char) (l : List Char) : Bool :=
  match pre, l with
  | [], _ => true
  | _ :: _, [] => false
  | a :: pre', b :: l' => if a = b then listStarts pre' l' else false

/-- Python `needle in hay` (substring containment) on character lists. -/
def containsSub (needle : List Char) : List Char → Bool
  | [] => needle.isEmpty
  | x :: t => listStarts needle (x :: t) || containsSub needle t

/-- Python `part.split("=", 1)[1]`: everything after the first `'='`.
Callers in the source only invoke this on strings that start with
`"access_token="` or `"expires_in="`, which contain a `'='`; the `[]`
result for `'='`-free input is never reached there. -/
def afterFirstEq : List Char → List Char
  | [] => []
  | x :: xs => if x = '=' then xs else afterFirstEq xs

/-- Python `s.split(c)` for a one-character separator `c`. -/
def splitOnChar (c : Char) : List Char → List (List Char)
  | [] => [[]]
  | x :: xs =>
    match splitOnChar c xs with
    | [] => [[]]
    | h :: t => if x = c then [] :: h :: t else (x :: h) :: t

/-- Interleave the separator back between chunks (inverse of `splitOnChar`). -/
def joinWith (c : Char) : List (List Char) → List Char
  | [] => []
  | [p] => p
  | p :: q :: t => p ++ c :: joinWith c (q :: t)

/-- Last element of a chunk list, with a default (models Python `parts[-1]`
after `split`, whose result is never empty). -/
def lastOr (d : List Char) : List (List Char) → List Char
  | [] => d
  | [p] => p
  | _ :: q :: t => lastOr d (q :: t)

/-- Python `url.split("#")[-1]` from `yandex_interactive.py` line 144 and
`yandex_oauth.py` lines 156 and 219. -/
def lastFrag (url : List Char) : List Char :=
  lastOr [] (splitOnChar '#' url)

/-- Python `text.find(needle)`: index of first occurrence, `none` for -1. -/
def pyFind (needle : List Char) : List Char → Option Nat
  | [] => if needle.isEmpty then some 0 else none
  | x :: xs =>
    if listStarts needle (x :: xs) then some 0
    else (pyFind needle xs).map (· + 1)

/-- Fuel-indexed worker for `replaceAll`; structural recursion on the fuel so
that the kernel can evaluate it. One unit of fuel is spent per consumed
character, so fuel equal to the input length never runs out. -/
def replaceAllFuel (pat rep : List Char) : Nat → List Char → List Char
  | 0, l => l
  | _ + 1, [] => []
  | fuel + 1, x :: xs =>
    if listStarts pat (x :: xs) ∧ pat ≠ [] then
      rep ++ replaceAllFuel pat rep fuel (xs.drop (pat.length - 1))
    else
      x :: replaceAllFuel pat rep fuel xs

/-- Python `s.replace(pat, rep)`: left-to-right, non-overlapping. The source
only uses a non-empty `pat` (`"\\u0026"`); the `pat ≠ []` guard makes the
function total without changing behaviour on those calls. -/
def replaceAll (pat rep : List Char) (l : List Char) : List Char :=
  replaceAllFuel pat rep l.length l

/-- ASCII digit test for the model of Python `int(...)`. -/
def isPyDigit (c : Char) : Bool := decide ('0' ≤ c ∧ c ≤ '9')

/-- Digit accumulator for `pyInt`; an underscore is accepted only between
two digits, as in CPython. -/
def digitsCore (acc : Nat) : List Char → Option Nat
  | [] => some acc
  | c :: rest =>
    if isPyDigit c then digitsCore (acc * 10 + (c.toNat - '0'.toNat)) rest
    else if c = '_' then
      match rest with
      | [] => none
      | d :: rest' =>
        if isPyDigit d then digitsCore (acc * 10 + (d.toNat - '0'.toNat)) rest'
        else none
    else none

/-- Non-empty digit run, first character must be a digit. -/
def digitsToNat : List Char → Option Nat
  | [] => none
  | c :: rest => if isPyDigit c then digitsCore (c.toNat - '0'.toNat) rest else none

/-- Leading/trailing whitespace strip, as Python `int` does before parsing. -/
def stripWs (l : List Char) : List Char :=
  ((l.dropWhile Char.isWhitespace).reverse.dropWhile Char.isWhitespace).reverse

/-- Model of Python `int(s)`: `none` models a raised `ValueError` (which the
source catches, yielding an absent expiry). -/
def pyInt (s : List Char) : Option Int :=
  match stripWs s with
  | [] => none
  | '+' :: rest => (digitsToNat rest).map Int.ofNat
  | '-' :: rest => (digitsToNat rest).map (fun n => -(Int.ofNat n))
  | l => (digitsToNat l).map Int.ofNat

/-- The marker scanned for throughout the token extractor. -/
def markerAT : List Char := "access_token=".toList

/-- The `expires_in=` key prefix. -/
def markerEI : List Char := "expires_in=".toList

/-- The escaped ampersand `&` (six characters) unescaped by
`_extract_from_text`. -/
def escU0026 : List Char := "\\u0026".toList

/-- `OAuthToken` dataclass from `yandex_oauth.py`. -/
structure OAuthToken where
  access_token : List Char
  expires_in : Option Int
deriving Repr, DecidableEq

/-- One iteration of the `for part in parts` loop of
`YandexOAuthFetcher._token_from_fragment` (lines 175-182): the running pair
is (captured access_token value, captured expires_in value). -/
def tffStep (acc : Option (List Char) × Option Int) (part : List Char) :
    Option (List Char) × Option Int :=
  let acc1 := if listStarts markerAT part then (some (afterFirstEq part), acc.2) else acc
  if listStarts markerEI part then (acc1.1, pyInt (afterFirstEq part)) else acc1

/-- `YandexOAuthFetcher._token_from_fragment` (lines 171-185): split on `&`,
scan the pairs, and return a token only when the captured access_token value
is truthy (non-empty). -/
def tokenFromFragment (fragment : List Char) : Option OAuthToken :=
  let parts := splitOnChar '&' fragment
  let acc := parts.foldl tffStep (none, none)
  match acc.1 with
  | some t => if t.isEmpty then none else some ⟨t, acc.2⟩
  | none => none

/-- `YandexOAuthFetcher._extract_from_text` (lines 160-169): find the marker,
slice to the next double quote (or end), unescape `&`, parse as a
fragment. Total by construction (the Python code cannot throw here either). -/
def extractFromText (text : List Char) : Option OAuthToken :=
  match pyFind markerAT text with
  | none => none
  | some start =>
    let substring := text.drop start
    let e :=
      match pyFind ['"'] substring with
      | none => substring.length
      | some e => e
    let fragment := replaceAll escU0026 ['&'] (substring.take e)
    tokenFromFragment fragment

/-- The navigation-URL fallback shared by `_monitor_async` (lines 139-145 of
`yandex_interactive.py`) and `fetch_token` (lines 217-222 of
`yandex_oauth.py`): a token is taken from the current URL only when the URL
is non-empty and contains the marker, by parsing `url.split("#")[-1]`. -/
def urlTokenFallback (url : List Char) : Option OAuthToken :=
  if url ≠ [] ∧ containsSub markerAT url = true then
    tokenFromFragment (lastFrag url)
  else
    none

example : tokenFromFragment "access_token=ABC123&expires_in=3600".toList =
    some ⟨"ABC123".toList, some 3600⟩ := by decide

example : tokenFromFragment "access_token=ABC&access_token=".toList = none := by decide

example : extractFromText "nothing here".toList = none := by decide

example : extractFromText "x\\u0026access_token=T\\u0026expires_in=5\" rest".toList =
    some ⟨"T".toList, some 5⟩ := by decide

example : urlTokenFallback "https://m/#access_token=ZZ&expires_in=10".toList =
    some ⟨"ZZ".toList, some 10⟩ := by decide

example : urlTokenFallback "https://m/?access_token=ZZ".toList = none := by decide

/-- State of one `InteractiveYandexSession` (`yandex_interactive.py`).
Booleans model `self._driver is not None`, `self._initialized`,
`self._closed`, the `asyncio.Event` flag and whether the monitor task is
alive; `teardownCount`, `driverAccessCount` and `callbackCount` instrument
how often teardown ran, how often the Selenium handle was touched and how
often the injected token callback fired. -/
structure Sess where
  sid : Nat
  user : Nat
  timeout : Int
  deadline : Int
  viewportW : Nat
  viewportH : Nat
  driver : Bool
  initialized : Bool
  closed : Bool
  createdAt : Int
  lastActivity : Int
  token : Option OAuthToken
  tokenEvent : Bool
  monitorActive : Bool
  timedOut : Bool
  teardownCount : Nat
  driverAccessCount : Nat
  callbackCount : Nat
deriving Repr, DecidableEq

/-- A freshly constructed and started session (`__init__` plus `start()`):
driver launched, monitor loop running, no token, event clear.
`deadline` is `time.time() + self._timeout` computed at monitor start
(line 119). Instrumentation counters start at zero. -/
def mkSess (sid user : Nat) (timeout : Int) (vw vh : Nat) (now : Int) : Sess :=
  { sid := sid, user := user, timeout := timeout, deadline := now + timeout
    viewportW := vw, viewportH := vh, driver := true, initialized := true
    closed := false, createdAt := now, lastActivity := now
    token := none, tokenEvent := false, monitorActive := true
    timedOut := false, teardownCount := 0, driverAccessCount := 0
    callbackCount := 0 }

/-- `touch()` (line 200): set last activity to the current clock reading. -/
def touchS (now : Int) (s : Sess) : Sess :=
  { s with lastActivity := now }

/-- `is_expired(now, ttl)` (line 203): `(now - last_activity) > ttl`. -/
def isExpiredS (now ttl : Int) (s : Sess) : Bool :=
  decide (ttl < now - s.lastActivity)

/-- `_emit_token` (lines 162-166): store the token, set the event, schedule
the injected callback. -/
def emitTokenS (t : OAuthToken) (s : Sess) : Sess :=
  { s with token := some t, tokenEvent := true, callbackCount := s.callbackCount + 1 }

/-- Result of one iteration of the polling loop in `_monitor_async`. -/
inductive StepOutcome where
  | inactive
  | timedOut
  | tokenFound
  | polled
deriving Repr, DecidableEq

/-- One iteration of `_monitor_async` (lines 118-152). The environment is
abstracted by `logsTok` (what `_extract_token_from_logs` yields on this
tick's performance log, meaningful only while the driver is up — with no
driver `_fetch_logs` returns `[]`) and `url` (the driver's current
navigation URL; with no driver `_fetch_current_url` returns `""`).
The loop body runs only while the session is not closed and the task is
alive; finding a token emits it and breaks. -/
def monitorStep (now : Int) (logsTok : Option OAuthToken) (url : List Char)
    (s : Sess) : Sess × StepOutcome :=
  if s.closed ∨ s.monitorActive = false then (s, .inactive)
  else if 0 < s.timeout ∧ s.deadline < now then
    ({ s with timedOut := true, monitorActive := false }, .timedOut)
  else
    let s1 := if s.driver then { s with driverAccessCount := s.driverAccessCount + 1 } else s
    let fromLogs := if s.driver then logsTok else none
    match fromLogs with
    | some t => (emitTokenS t { s1 with monitorActive := false }, .tokenFound)
    | none =>
      let s2 := if s1.driver then { s1 with driverAccessCount := s1.driverAccessCount + 1 } else s1
      let curUrl := if s2.driver then url else []
      match urlTokenFallback curUrl with
      | some t => (emitTokenS t { s2 with monitorActive := false }, .tokenFound)
      | none => (s2, .polled)

/-- `close()` (lines 175-196): a second call returns immediately; the first
call cancels the monitor task, quits the driver (touching it only if it is
still there), drops the handle and shuts the executor down — one teardown. -/
def closeS (s : Sess) : Sess :=
  if s.closed then s
  else
    let s1 := { s with closed := true, monitorActive := false }
    let s2 :=
      if s1.driver then
        { s1 with driverAccessCount := s1.driverAccessCount + 1, driver := false }
      else
        { s1 with driver := false }
    { s2 with teardownCount := s2.teardownCount + 1 }

/-- `_capture_frame` (lines 216-223): `None` when closed or driverless,
otherwise a screenshot attempt (result abstracted by `frameData`, `none`
modelling a raised-and-swallowed exception). -/
def captureFrameS (frameData : Option (List Char)) (s : Sess) :
    Sess × Option (List Char) :=
  if s.closed ∨ s.driver = false then (s, none)
  else ({ s with driverAccessCount := s.driverAccessCount + 1 }, frameData)

/-- An inbound gateway payload: its `type` field and `event` sub-field. -/
structure Payload where
  ptype : List Char
  event : List Char
deriving Repr, DecidableEq

/-- `_dispatch_event` (lines 343-352) with `_dispatch_mouse`,
`_dispatch_keyboard` and `_dispatch_scroll`: each handler bails out without
touching the driver when the handle is gone or the sub-event is not in its
family's supported set; otherwise it issues one CDP command. -/
def dispatchEventS (p : Payload) (s : Sess) : Sess :=
  if p.ptype = "mouse".toList then
    if s.driver = false then s
    else if p.event = "move".toList ∨ p.event = "down".toList ∨
        p.event = "up".toList ∨ p.event = "wheel".toList then
      { s with driverAccessCount := s.driverAccessCount + 1 }
    else s
  else if p.ptype = "keyboard".toList then
    if s.driver = false then s
    else if p.event = "down".toList ∨ p.event = "up".toList ∨
        p.event = "char".toList then
      { s with driverAccessCount := s.driverAccessCount + 1 }
    else s
  else if p.ptype = "scroll".toList then
    if s.driver = false then s
    else { s with driverAccessCount := s.driverAccessCount + 1 }
  else s

/-- `wait_for_token()` (lines 206-208): `await self._token_event.wait()`
then return `self._token`. The outer `none` means the awaiting caller is
still suspended (the event is clear); `some r` means the call completed
with result `r`. -/
def waitForTokenS (s : Sess) : Option (Option OAuthToken) :=
  if s.tokenEvent then some s.token else none

/-- The operations that can hit a session after it is started. -/
inductive SessOp where
  | step (now : Int) (logsTok : Option OAuthToken) (url : List Char)
  | touch (now : Int)
  | dispatch (p : Payload)
  | frame (d : Option (List Char))
  | close
deriving Repr

/-- Apply one operation (outputs discarded). -/
def applySessOp (op : SessOp) (s : Sess) : Sess :=
  match op with
  | .step now logsTok url => (monitorStep now logsTok url s).1
  | .touch now => touchS now s
  | .dispatch p => dispatchEventS p s
  | .frame d => (captureFrameS d s).1
  | .close => closeS s

/-- Run a list of operations from a freshly started session. -/
def runOps (sid user : Nat) (timeout : Int) (vw vh : Nat) (now : Int)
    (ops : List SessOp) : Sess :=
  ops.foldl (fun s op => applySessOp op s) (mkSess sid user timeout vw vh now)

/-- Association-list lookup, modelling Python `dict.get`. -/
def alookup (k : Nat) : List (Nat × α) → Option α
  | [] => none
  | (k', v) :: t => if k = k' then some v else alookup k t

/-- Association-list removal, modelling Python `dict.pop(k, None)` on a
dict whose keys are unique. -/
def aerase (k : Nat) : List (Nat × α) → List (Nat × α)
  | [] => []
  | (k', v) :: t => if k = k' then t else (k', v) :: aerase k t

/-- Association-list assignment, modelling `d[k] = v`: replace in place if
the key exists, append otherwise. -/
def ainsert (k : Nat) (v : α) : List (Nat × α) → List (Nat × α)
  | [] => [(k, v)]
  | (k', v') :: t => if k' = k then (k, v) :: t else (k', v') :: ainsert k v t

/-- Manager configuration shared by all sessions it creates
(`YandexInteractiveSessionManager.__init__`). -/
structure ManagerCfg where
  timeout : Int
  vw : Nat
  vh : Nat
deriving Repr, DecidableEq

/-- `YandexInteractiveSessionManager` state: the two indexes
(`self._sessions` by session id, `self._sessions_by_user`), the counter
standing in for `uuid4` session-id generation, and — as history
instrumentation only — the sessions that have been popped and closed. -/
structure Manager where
  cfg : ManagerCfg
  nextId : Nat
  sessions : List (Nat × Sess)
  byUser : List (Nat × Nat)
  graveyard : List Sess
deriving Repr, DecidableEq

/-- A manager with no sessions. -/
def initManager (cfg : ManagerCfg) : Manager :=
  { cfg := cfg, nextId := 0, sessions := [], byUser := [], graveyard := [] }

/-- `_close_session` (lines 417-425): pop from the id index (return if
absent), pop the user index unconditionally for the session's user, then
`close()` the session (errors swallowed). The closed session is appended to
the instrumentation graveyard. -/
def closeSessionInner (sid : Nat) (m : Manager) : Manager :=
  match alookup sid m.sessions with
  | none => m
  | some s =>
    { m with
      sessions := aerase sid m.sessions
      byUser := aerase s.user m.byUser
      graveyard := m.graveyard ++ [closeS s] }

/-- `close_session` (lines 427-429): serialized by the registry lock, which
the sequential model makes implicit. -/
def closeSessionM (sid : Nat) (m : Manager) : Manager :=
  closeSessionInner sid m

/-- `get_session` (lines 408-410). -/
def getSessionM (sid : Nat) (m : Manager) : Option Sess :=
  alookup sid m.sessions

/-- `start_session` (lines 384-406): under the lock, force-close the user's
existing session if any, then create, start and register a fresh one.
The model's clock passes `now` for creation time. -/
def startSession (u : Nat) (now : Int) (m : Manager) : Manager :=
  let m1 :=
    match alookup u m.byUser with
    | some existingId => closeSessionInner existingId m
    | none => m
  let sid := m1.nextId
  let s := mkSess sid u m1.cfg.timeout m1.cfg.vw m1.cfg.vh now
  { m1 with
    nextId := sid + 1
    sessions := ainsert sid s m1.sessions
    byUser := ainsert u sid m1.byUser }

/-- `n` successive `start_session(u)` calls on an initially empty registry
(the sequence quantified over in the claim). -/
def startIter (cfg : ManagerCfg) (u : Nat) : Nat → Manager
  | 0 => initManager cfg
  | n + 1 => startSession u 0 (startIter cfg u n)

/-- The sessions superseded by the first `n + 1` calls of `startIter`, in
order: session `k` is created by call `k` and closed by call `k + 1`. -/
def grave (cfg : ManagerCfg) (u : Nat) : Nat → List Sess
  | 0 => []
  | k + 1 => grave cfg u k ++ [closeS (mkSess k u cfg.timeout cfg.vw cfg.vh 0)]

/-- Server→client messages of the stream gateway wire protocol
(`yandex_interactive_ws` in `app/__init__.py`). -/
inductive OutMsg where
  | error (message : List Char)
  | init (sessionId : Nat) (width height : Nat)
  | frame (image : List Char) (ts : Int)
  | token (tok : OAuthToken)
  | pong (ts : Int)
deriving Repr, DecidableEq

/-- The error text sent for an unknown session id (line 140). -/
def errSessionNotFound : List Char := "Сессия не найдена или устарела.".toList

/-- The connection prologue of `yandex_interactive_ws` (lines 136-154):
after accepting, look the session up; unknown → send one error message and
close (the returned Bool); known → touch, send `init` with id and viewport,
keep the connection open and hand the touched session to the fan-out
stage. -/
def gatewayConnect (lookup : Option Sess) (now : Int) :
    List OutMsg × Bool × Option Sess :=
  match lookup with
  | none => ([.error errSessionNotFound], true, none)
  | some s => ([.init s.sid s.viewportW s.viewportH], false, some (touchS now s))

/-- One inbound message handled by `handle_messages` (lines 182-196):
`mouse`/`keyboard`/`scroll` → touch then dispatch; `ping` → touch then one
`pong` with the current time; anything else is ignored. -/
def handleClientMessage (p : Payload) (now : Int) (s : Sess) :
    Sess × List OutMsg :=
  if p.ptype = "mouse".toList ∨ p.ptype = "keyboard".toList ∨
      p.ptype = "scroll".toList then
    (dispatchEventS p (touchS now s), [])
  else if p.ptype = "ping".toList then
    (touchS now s, [.pong now])
  else
    (s, [])

/-- Value produced by the last element of `l` satisfying `f`, with default
`d`: the shape in which the left-to-right overwrite of the
`_token_from_fragment` loop is characterised. -/
def lastWith (f : List Char → Bool) (g : List Char → α) (d : α) :
    List (List Char) → α
  | [] => d
  | p :: rest => lastWith f g (if f p then g p else d) rest

/-- A concrete session used to instantiate universally quantified theorems:
user 7, a 120-second token deadline, an 800×600 viewport, started at time
0. -/
def sessEx : Sess := mkSess 1 7 120 800 600 0

/-- A concrete fragment-bearing URL for instantiations. -/
def urlEx : List Char := "https://music.yandex.ru/#access_token=TOK&expires_in=3600".toList

theorem listStarts_iff (p l : List Char) : listStarts p l = true ↔ p <+: l := by
  induction p generalizing l with
  | nil => simp [listStarts]
  | cons a p' ih =>
    cases l with
    | nil => simp [listStarts]
    | cons b l' =>
      by_cases hab : a = b
      · subst hab
        simp [listStarts, List.cons_prefix_cons, ih]
      · simp [listStarts, hab, List.cons_prefix_cons]

theorem sub_of_starts {p l : List Char} (h : listStarts p l = true) : p <:+: l :=
  ((listStarts_iff p l).mp h).isInfix

theorem sub_cons_iff {n : List Char} {x : Char} {t : List Char} :
    n <:+: x :: t ↔ n <+: x :: t ∨ n <:+: t := by
  constructor
  · rintro ⟨s, u, h⟩
    cases s with
    | nil => exact Or.inl ⟨u, by simpa using h⟩
    | cons y s' =>
      injection h with hy ht
      exact Or.inr ⟨s', u, ht⟩
  · rintro (⟨u, h⟩ | ⟨s, u, h⟩)
    · exact ⟨[], u, by simpa using h⟩
    · exact ⟨x :: s, u, by simp [← h]⟩

theorem containsSub_iff (n l : List Char) : containsSub n l = true ↔ n <:+: l := by
  induction l with
  | nil =>
    simp only [containsSub, List.isEmpty_iff]
    constructor
    · rintro rfl; exact List.nil_infix
    · rintro ⟨s, u, h⟩
      rcases List.append_eq_nil.mp h with ⟨h1, h2⟩
      exact (List.append_eq_nil.mp h1).2
  | cons x t ih =>
    simp only [containsSub, Bool.or_eq_true, listStarts_iff, ih, sub_cons_iff]

theorem splitOnChar_ne_nil (c : Char) (l : List Char) : splitOnChar c l ≠ [] := by
  cases l with
  | nil => simp [splitOnChar]
  | cons x xs =>
    simp only [splitOnChar]
    cases hs : splitOnChar c xs with
    | nil => simp
    | cons h t => by_cases hx : x = c <;> simp [hx]

theorem joinWith_cons_cons (c x : Char) (h : List Char) (t : List (List Char)) :
    joinWith c ((x :: h) :: t) = x :: joinWith c (h :: t) := by
  cases t <;> simp [joinWith]

theorem joinWith_splitOnChar (c : Char) (l : List Char) :
    joinWith c (splitOnChar c l) = l := by
  induction l with
  | nil => rfl
  | cons x xs ih =>
    simp only [splitOnChar]
    cases hs : splitOnChar c xs with
    | nil => exact absurd hs (splitOnChar_ne_nil c xs)
    | cons h t =>
      rw [hs] at ih
      by_cases hx : x = c
      · subst hx
        simp [joinWith, ih]
      · simp [hx, joinWith_cons_cons, ih]

theorem sub_of_mem_chunks {c : Char} {p : List Char} {ps : List (List Char)}
    (hp : p ∈ ps) : p <:+: joinWith c ps := by
  induction ps with
  | nil => cases hp
  | cons q ps' ih =>
    rcases List.mem_cons.mp hp with rfl | hmem
    · cases ps' with
      | nil => exact List.infix_rfl
      | cons r t => exact ⟨[], c :: joinWith c (r :: t), rfl⟩
    · cases ps' with
      | nil => cases hmem
      | cons r t =>
        rcases ih hmem with ⟨s, u, hsu⟩
        exact ⟨q ++ c :: s, u, by simp [joinWith, List.append_assoc, ← hsu]⟩

theorem mem_splitOnChar_sub {c : Char} {p l : List Char}
    (hp : p ∈ splitOnChar c l) : p <:+: l :=
  joinWith_splitOnChar c l ▸ sub_of_mem_chunks hp

theorem lastOr_sfx (c : Char) (d : List Char) (ps : List (List Char)) :
    ps ≠ [] → lastOr d ps <:+ joinWith c ps := by
  induction ps with
  | nil => intro hps; cases hps rfl
  | cons q ps' ih =>
    intro _
    cases ps' with
    | nil => exact List.suffix_rfl
    | cons r t =>
      rcases ih (by simp) with ⟨u, hu⟩
      exact ⟨q ++ c :: u, by simp [lastOr, joinWith, List.append_assoc, ← hu]⟩

theorem lastFrag_sfx (url : List Char) : lastFrag url <:+ url := by
  have h := lastOr_sfx '#' [] (splitOnChar '#' url) (splitOnChar_ne_nil '#' url)
  rwa [joinWith_splitOnChar] at h

theorem pyFind_none_iff (n l : List Char) :
    pyFind n l = none ↔ containsSub n l = false := by
  induction l with
  | nil => by_cases hn : n.isEmpty <;> simp [pyFind, containsSub, hn]
  | cons x xs ih =>
    by_cases hs : listStarts n (x :: xs) <;>
      simp [pyFind, containsSub, hs, ih, Option.map_eq_none']

theorem pyFind_starts {n l : List Char} {i : Nat} (h : pyFind n l = some i) :
    listStarts n (l.drop i) = true := by
  induction l generalizing i with
  | nil =>
    simp only [pyFind] at h
    split at h
    · rename_i hn
      injection h with h0
      subst h0
      cases n with
      | nil => rfl
      | cons a b => simp [List.isEmpty] at hn
    · cases h
  | cons x xs ih =>
    simp only [pyFind] at h
    split at h
    · rename_i hs
      injection h with h0
      subst h0
      simpa using hs
    · rcases Option.map_eq_some'.mp h with ⟨j, hj, rfl⟩
      simpa using ih hj

theorem pyFind_le_len {n l : List Char} {i : Nat} (h : pyFind n l = some i) :
    i ≤ l.length := by
  induction l generalizing i with
  | nil =>
    simp only [pyFind] at h
    split at h
    · injection h with h0; omega
    · cases h
  | cons x xs ih =>
    simp only [pyFind] at h
    split at h
    · injection h with h0; omega
    · rcases Option.map_eq_some'.mp h with ⟨j, hj, rfl⟩
      have := ih hj
      simp only [List.length_cons]
      omega

theorem pyFind_min {n l : List Char} {i : Nat} (h : pyFind n l = some i) :
    ∀ j, listStarts n (l.drop j) = true → i ≤ j := by
  induction l generalizing i with
  | nil =>
    intro j hj
    simp only [pyFind] at h
    split at h
    · injection h with h0; omega
    · cases h
  | cons x xs ih =>
    intro j hj
    simp only [pyFind] at h
    split at h
    · injection h with h0; omega
    · rename_i hs
      rcases Option.map_eq_some'.mp h with ⟨i', hi', rfl⟩
      cases j with
      | zero => simp only [List.drop_zero] at hj; exact absurd hj (by simpa using hs)
      | succ j' =>
        have := ih hi' j' (by simpa using hj)
        omega

theorem take_quote_eq_takeWhile (s : List Char) :
    s.take (match pyFind ['"'] s with | none => s.length | some e => e) =
      s.takeWhile (fun ch => decide (ch ≠ '"')) := by
  induction s with
  | nil => rfl
  | cons x xs ih =>
    by_cases hx : x = '"'
    · subst hx
      simp [pyFind, listStarts, List.takeWhile_cons]
    · have hns : listStarts ['"'] (x :: xs) = false := by
        simp only [listStarts]
        rw [if_neg (fun h => hx h.symm)]
      cases hf : pyFind ['"'] xs with
      | none =>
        rw [hf] at ih
        simp [pyFind, hns, hf, List.takeWhile_cons, hx, ih]
      | some e =>
        rw [hf] at ih
        simp [pyFind, hns, hf, List.takeWhile_cons, hx, ih]

theorem find?_append_single (f : List Char → Bool) (u : List (List Char)) (p : List Char) :
    (u ++ [p]).find? f =
      match u.find? f with
      | some q => some q
      | none => if f p then some p else none := by
  induction u with
  | nil => by_cases hp : f p <;> simp [List.find?_cons, hp]
  | cons q u' ih => by_cases hq : f q <;> simp [List.find?_cons, hq, ih]

theorem lastWith_eq_find?_reverse (f : List Char → Bool) (g : List Char → α) (d : α)
    (l : List (List Char)) :
    lastWith f g d l =
      match l.reverse.find? f with
      | some p => g p
      | none => d := by
  induction l generalizing d with
  | nil => rfl
  | cons p rest ih =>
    rw [lastWith, ih, List.reverse_cons, find?_append_single]
    cases hr : rest.reverse.find? f <;> by_cases hp : f p <;> simp [hp]

theorem foldl_tffStep_eq (parts : List (List Char)) (a : Option (List Char) × Option Int) :
    parts.foldl tffStep a =
      (lastWith (listStarts markerAT) (fun p => some (afterFirstEq p)) a.1 parts,
       lastWith (listStarts markerEI) (fun p => pyInt (afterFirstEq p)) a.2 parts) := by
  induction parts generalizing a with
  | nil => simp [lastWith]
  | cons p rest ih =>
    rw [List.foldl_cons, ih]
    by_cases hAT : listStarts markerAT p <;> by_cases hEI : listStarts markerEI p <;>
      simp [tffStep, lastWith, hAT, hEI]

theorem tokenFromFragment_spec (fragment : List Char) :
    tokenFromFragment fragment =
      match (splitOnChar '&' fragment).reverse.find? (listStarts markerAT) with
      | none => none
      | some p =>
        if (afterFirstEq p).isEmpty then none
        else
          some ⟨afterFirstEq p,
            match (splitOnChar '&' fragment).reverse.find? (listStarts markerEI) with
            | none => none
            | some q => pyInt (afterFirstEq q)⟩ := by
  simp only [tokenFromFragment]
  rw [foldl_tffStep_eq, lastWith_eq_find?_reverse, lastWith_eq_find?_reverse]
  cases hAT : (splitOnChar '&' fragment).reverse.find? (listStarts markerAT) <;>
    cases hEI : (splitOnChar '&' fragment).reverse.find? (listStarts markerEI) <;> simp

theorem tokenFromFragment_some_marker {fragment : List Char} {t : OAuthToken}
    (h : tokenFromFragment fragment = some t) :
    containsSub markerAT fragment = true := by
  rw [tokenFromFragment_spec] at h
  cases hAT : (splitOnChar '&' fragment).reverse.find? (listStarts markerAT) with
  | none => rw [hAT] at h; cases h
  | some p =>
    have hp : p ∈ (splitOnChar '&' fragment).reverse := List.mem_of_find?_eq_some hAT
    have hfp : listStarts markerAT p = true := List.find?_some hAT
    exact (containsSub_iff _ _).mpr
      ((sub_of_starts hfp).trans (mem_splitOnChar_sub (List.mem_reverse.mp hp)))

theorem tokenFromFragment_none_of_no_marker {fragment : List Char}
    (h : containsSub markerAT fragment = false) : tokenFromFragment fragment = none := by
  cases ht : tokenFromFragment fragment with
  | none => rfl
  | some t => rw [tokenFromFragment_some_marker ht] at h; cases h

theorem startIter_succ (cfg : ManagerCfg) (u n : Nat) :
    startIter cfg u (n + 1) =
      { cfg := cfg, nextId := n + 1
        sessions := [(n, mkSess n u cfg.timeout cfg.vw cfg.vh 0)]
        byUser := [(u, n)]
        graveyard := grave cfg u n } := by
  induction n with
  | zero =>
    simp [startIter, startSession, initManager, alookup, ainsert, grave]
  | succ k ih =>
    rw [startIter, ih]
    simp [startSession, alookup, closeSessionInner, aerase, ainsert, grave, mkSess]

theorem grave_mem {cfg : ManagerCfg} {u n : Nat} {s : Sess} (hs : s ∈ grave cfg u n) :
    s.closed = true ∧ s.teardownCount = 1 := by
  induction n with
  | zero => cases hs
  | succ k ih =>
    rw [grave] at hs
    rcases List.mem_append.mp hs with h | h
    · exact ih h
    · rcases List.mem_singleton.mp h with rfl
      constructor <;> simp [closeS, mkSess]

theorem grave_len (cfg : ManagerCfg) (u : Nat) (n : Nat) :
    (grave cfg u n).length = n := by
  induction n with
  | zero => rfl
  | succ k ih => simp [grave, ih]

theorem dispatchEventS_fields (p : Payload) (s : Sess) :
    (dispatchEventS p s).token = s.token ∧
    (dispatchEventS p s).tokenEvent = s.tokenEvent ∧
    (dispatchEventS p s).monitorActive = s.monitorActive ∧
    (dispatchEventS p s).closed = s.closed ∧
    (dispatchEventS p s).driver = s.driver := by
  unfold dispatchEventS
  repeat' split
  all_goals simp

theorem dispatchEventS_no_driver (p : Payload) (s : Sess) (h : s.driver = false) :
    (dispatchEventS p s).driverAccessCount = s.driverAccessCount := by
  unfold dispatchEventS
  repeat' split
  all_goals simp_all

theorem captureFrameS_fields (d : Option (List Char)) (s : Sess) :
    (captureFrameS d s).1.token = s.token ∧
    (captureFrameS d s).1.tokenEvent = s.tokenEvent ∧
    (captureFrameS d s).1.monitorActive = s.monitorActive ∧
    (captureFrameS d s).1.closed = s.closed ∧
    (captureFrameS d s).1.driver = s.driver := by
  unfold captureFrameS
  repeat' split
  all_goals simp

theorem closeS_token_event (s : Sess) :
    (closeS s).token = s.token ∧ (closeS s).tokenEvent = s.tokenEvent := by
  simp only [closeS]
  by_cases hc : s.closed = true
  · simp [hc]
  · by_cases hd : s.driver = true <;> simp [hc, hd]

theorem closeS_closed (s : Sess) : (closeS s).closed = true := by
  simp only [closeS]
  by_cases hc : s.closed = true
  · simp [hc]
  · by_cases hd : s.driver = true <;> simp [hc, hd]

theorem closeS_of_closed {s : Sess} (hc : s.closed = true) : closeS s = s := by
  simp [closeS, hc]

theorem closeS_driver_of_open {s : Sess} (hc : s.closed = false) :
    (closeS s).driver = false := by
  simp only [closeS]
  by_cases hd : s.driver = true <;> simp [hc, hd]

theorem closeS_teardown (s : Sess) :
    (closeS s).teardownCount = s.teardownCount + (if s.closed = true then 0 else 1) := by
  simp only [closeS]
  by_cases hc : s.closed = true
  · simp [hc]
  · by_cases hd : s.driver = true <;> simp [hc, hd]

theorem closeS_active_of_open {s : Sess} (hc : s.closed = false) :
    (closeS s).monitorActive = false := by
  simp only [closeS]
  by_cases hd : s.driver = true <;> simp [hc, hd]

theorem monitorStep_of_stopped (now : Int) (lt : Option OAuthToken) (url : List Char)
    (s : Sess) (h : s.closed = true ∨ s.monitorActive = false) :
    monitorStep now lt url s = (s, .inactive) := by
  unfold monitorStep
  rw [if_pos (by simpa using h)]

theorem monitorStep_cases (now : Int) (lt : Option OAuthToken) (url : List Char) (s : Sess) :
    ((monitorStep now lt url s).1.token = s.token ∧
     (monitorStep now lt url s).1.monitorActive = s.monitorActive ∧
     (monitorStep now lt url s).1.closed = s.closed ∧
     (monitorStep now lt url s).1.driver = s.driver) ∨
    ((monitorStep now lt url s).1.monitorActive = false ∧
     (monitorStep now lt url s).1.closed = s.closed ∧
     (monitorStep now lt url s).1.driver = s.driver) := by
  simp only [monitorStep]
  repeat' split
  all_goals simp_all [emitTokenS]

theorem inv2_preserved (op : SessOp) (s : Sess) (h : s.closed = true → s.driver = false) :
    (applySessOp op s).closed = true → (applySessOp op s).driver = false := by
  cases op with
  | step now lt url =>
    simp only [applySessOp]
    rcases monitorStep_cases now lt url s with ⟨_, _, hc, hd⟩ | ⟨_, hc, hd⟩ <;>
      (intro hcl; rw [hd]; exact h (hc ▸ hcl))
  | touch now => simpa [applySessOp, touchS] using h
  | dispatch p =>
    have hf := dispatchEventS_fields p s
    simp only [applySessOp]
    intro hcl
    rw [hf.2.2.2.2]
    exact h (hf.2.2.2.1 ▸ hcl)
  | frame d =>
    have hf := captureFrameS_fields d s
    simp only [applySessOp]
    intro hcl
    rw [hf.2.2.2.2]
    exact h (hf.2.2.2.1 ▸ hcl)
  | close =>
    simp only [applySessOp]
    intro _
    by_cases hc : s.closed = true
    · rw [closeS_of_closed hc]; exact h hc
    · exact closeS_driver_of_open (by simpa using hc)

theorem inv_token_preserved (op : SessOp) (s : Sess)
    (h : s.token.isSome = true → s.monitorActive = false) :
    (applySessOp op s).token.isSome = true → (applySessOp op s).monitorActive = false := by
  cases op with
  | step now lt url =>
    simp only [applySessOp]
    rcases monitorStep_cases now lt url s with ⟨ht, ha, _, _⟩ | ⟨ha, _, _⟩
    · intro hs; rw [ha]; exact h (ht ▸ hs)
    · intro _; exact ha
  | touch now => simpa [applySessOp, touchS] using h
  | dispatch p =>
    have hf := dispatchEventS_fields p s
    simp only [applySessOp]
    intro hs
    rw [hf.2.2.1]
    exact h (hf.1 ▸ hs)
  | frame d =>
    have hf := captureFrameS_fields d s
    simp only [applySessOp]
    intro hs
    rw [hf.2.2.1]
    exact h (hf.1 ▸ hs)
  | close =>
    simp only [applySessOp]
    intro _
    by_cases hc : s.closed = true
    · rw [closeS_of_closed hc] at *
      exact h (by assumption)
    · exact closeS_active_of_open (by simpa using hc)

theorem applySessOp_token_of_inactive (op : SessOp) (s : Sess)
    (h : s.monitorActive = false) : (applySessOp op s).token = s.token := by
  cases op with
  | step now lt url =>
    simp [applySessOp, monitorStep_of_stopped now lt url s (Or.inr h)]
  | touch now => rfl
  | dispatch p => exact (dispatchEventS_fields p s).1
  | frame d => exact (captureFrameS_fields d s).1
  | close => exact (closeS_token_event s).1

theorem runOps_token_inv (sid user : Nat) (timeout : Int) (vw vh : Nat) (now : Int)
    (ops : List SessOp) :
    (runOps sid user timeout vw vh now ops).token.isSome = true →
      (runOps sid user timeout vw vh now ops).monitorActive = false := by
  unfold runOps
  suffices h : ∀ (s : Sess), (s.token.isSome = true → s.monitorActive = false) →
      ((ops.foldl (fun s op => applySessOp op s) s).token.isSome = true →
       (ops.foldl (fun s op => applySessOp op s) s).monitorActive = false) by
    exact h _ (by simp [mkSess])
  induction ops with
  | nil => intro s hs; exact hs
  | cons op rest ih => intro s hs; exact ih _ (inv_token_preserved op s hs)

theorem runOps_closed_inv (sid user : Nat) (timeout : Int) (vw vh : Nat) (now : Int)
    (ops : List SessOp) :
    (runOps sid user timeout vw vh now ops).closed = true →
      (runOps sid user timeout vw vh now ops).driver = false := by
  unfold runOps
  suffices h : ∀ (s : Sess), (s.closed = true → s.driver = false) →
      ((ops.foldl (fun s op => applySessOp op s) s).closed = true →
       (ops.foldl (fun s op => applySessOp op s) s).driver = false) by
    exact h _ (by simp [mkSess])
  induction ops with
  | nil => intro s hs; exact hs
  | cons op rest ih => intro s hs; exact ih _ (inv2_preserved op s hs)

theorem closeS_iter (s : Sess) (n : Nat) : closeS^[n + 1] s = closeS s := by
  induction n with
  | zero => rfl
  | succ k ih =>
    rw [Function.iterate_succ_apply] at ih
    rw [Function.iterate_succ_apply, Function.iterate_succ_apply,
      closeS_of_closed (closeS_closed s)]
    exact ih

theorem captureFrameS_of_closed (fd : Option (List Char)) (t : Sess)
    (h : t.closed = true) : captureFrameS fd t = (t, none) := by
  simp [captureFrameS, h]

theorem markerAT_ne_nil : markerAT ≠ [] := by decide

theorem containsSub_of_contains_frag {url : List Char}
    (h : containsSub markerAT (lastFrag url) = true) :
    url ≠ [] ∧ containsSub markerAT url = true := by
  have hinf : markerAT <:+: lastFrag url := (containsSub_iff _ _).mp h
  rcases hinf with ⟨a, b, hab⟩
  rcases lastFrag_sfx url with ⟨v, hv⟩
  have hurl : markerAT <:+: url := ⟨v ++ a, b, by rw [← hv, ← hab]; simp [List.append_assoc]⟩
  refine ⟨?_, (containsSub_iff _ _).mpr hurl⟩
  rintro rfl
  rcases hurl with ⟨a', b', hab'⟩
  have h1 := List.append_eq_nil.mp hab'
  exact markerAT_ne_nil (List.append_eq_nil.mp h1.1).2

theorem monitorStep_tokenFound {now : Int} {lt : Option OAuthToken} {url : List Char}
    {s : Sess} (h : (monitorStep now lt url s).2 = .tokenFound) :
    ∃ t, (monitorStep now lt url s).1.token = some t ∧
      (monitorStep now lt url s).1.tokenEvent = true := by
  revert h
  simp only [monitorStep]
  repeat' split
  all_goals simp_all [emitTokenS]

theorem monitorStep_fallback (now : Int) (url : List Char) (s : Sess)
    (hc : s.closed = false) (ha : s.monitorActive = true)
    (ht : ¬(0 < s.timeout ∧ s.deadline < now)) (hd : s.driver = true) :
    ((monitorStep now none url s).2 = .tokenFound ↔ (urlTokenFallback url).isSome = true) := by
  simp only [monitorStep, hc, ha, hd]
  rw [if_neg (by simp), if_neg ht]
  cases hu : urlTokenFallback url <;> simp [hu]

theorem urlTokenFallback_some_marker {url : List Char}
    (h : (urlTokenFallback url).isSome = true) :
    containsSub markerAT (lastFrag url) = true := by
  unfold urlTokenFallback at h
  split at h
  · cases ht : tokenFromFragment (lastFrag url) with
    | none => rw [ht] at h; cases h
    | some t => exact tokenFromFragment_some_marker ht
  · cases h

theorem urlTokenFallback_none {url : List Char}
    (h : containsSub markerAT (lastFrag url) = false) : urlTokenFallback url = none := by
  cases hu : urlTokenFallback url with
  | none => rfl
  | some t =>
    have hm := urlTokenFallback_some_marker (by rw [hu]; rfl)
    rw [hm] at h
    cases h

/-- Claim C1: for every sequence of `start_session(u)` calls for the same
user `u` on the registry, after each call exactly one session is registered
for `u` (the id index and the user index agree on it, and it is open), and
every superseded session has had `close()` executed on it exactly once (one
teardown) before the new session was registered. -/
theorem claim_C1 (cfg : ManagerCfg) (u n : Nat) :
    ((startIter cfg u (n + 1)).sessions.filter
        (fun p => decide (p.2.user = u))).length = 1 ∧
    alookup u (startIter cfg u (n + 1)).byUser = some n ∧
    alookup n (startIter cfg u (n + 1)).sessions =
      some (mkSess n u cfg.timeout cfg.vw cfg.vh 0) ∧
    (∀ p ∈ (startIter cfg u (n + 1)).sessions, p.2.user = u ∧ p.2.closed = false) ∧
    (startIter cfg u (n + 1)).graveyard.length = n ∧
    (∀ s ∈ (startIter cfg u (n + 1)).graveyard,
      s.closed = true ∧ s.teardownCount = 1) := by
  rw [startIter_succ]
  refine ⟨by simp [mkSess], by simp [alookup], by simp [alookup], ?_,
    grave_len cfg u n, fun s hs => grave_mem hs⟩
  intro p hp
  rcases List.mem_singleton.mp hp with rfl
  exact ⟨rfl, rfl⟩

theorem claim_C1_witness :
    ((startIter ⟨120, 800, 600⟩ 7 3).sessions.filter
        (fun p => decide (p.2.user = 7))).length = 1 ∧
    alookup 7 (startIter ⟨120, 800, 600⟩ 7 3).byUser = some 2 ∧
    (startIter ⟨120, 800, 600⟩ 7 3).graveyard.length = 2 :=
  ⟨(claim_C1 ⟨120, 800, 600⟩ 7 2).1, (claim_C1 ⟨120, 800, 600⟩ 7 2).2.1,
   (claim_C1 ⟨120, 800, 600⟩ 7 2).2.2.2.2.1⟩

/-- Claim C2 counterexample: on a session with no captured token, `close()`
does not set the token event, so a pending `wait_for_token()` does not
complete — in particular it does not complete with "none" as the claim
states (`waitForTokenS = none` means the awaiting caller is still
suspended; completing with "none" would be `some none`). -/
theorem claim_C2_counterexample :
    (closeS sessEx).token = none ∧ (closeS sessEx).closed = true ∧
    waitForTokenS (closeS sessEx) = none ∧
    waitForTokenS (closeS sessEx) ≠ some none := by decide

/-- Claim C2 (amended): `wait_for_token()` suspends until the token event is
set, which happens exactly at token capture, and then returns the stored
token; `close()` leaves the token and the event untouched, so a session
closed without a token leaves a waiting `wait_for_token()` suspended (it is
only ever released by token capture or external task cancellation). -/
theorem claim_C2_amended (s : Sess) (now : Int) (lt : Option OAuthToken)
    (url : List Char) (h : (monitorStep now lt url s).2 = .tokenFound) :
    waitForTokenS (closeS s) = waitForTokenS s ∧
    (∃ t, waitForTokenS (monitorStep now lt url s).1 = some (some t)) := by
  have he := closeS_token_event s
  refine ⟨by simp [waitForTokenS, he.1, he.2], ?_⟩
  rcases monitorStep_tokenFound h with ⟨t, ht, hev⟩
  exact ⟨t, by simp [waitForTokenS, hev, ht]⟩

theorem claim_C2_witness :
    waitForTokenS (closeS sessEx) = waitForTokenS sessEx :=
  (claim_C2_amended sessEx 1 (some ⟨"TOK".toList, none⟩) [] (by decide)).1

/-- Claim C3 counterexample: the fragment
`access_token=ABC&access_token=` contains an `access_token` pair with a
non-empty value, yet `_token_from_fragment` returns "not found", because the
loop keeps the value of the last `access_token` pair, which here is
empty. -/
theorem claim_C3_counterexample :
    listStarts markerAT "access_token=ABC".toList = true ∧
    "access_token=ABC".toList ∈
      splitOnChar '&' "access_token=ABC&access_token=".toList ∧
    (afterFirstEq "access_token=ABC".toList).isEmpty = false ∧
    tokenFromFragment "access_token=ABC&access_token=".toList = none := by decide

/-- Claim C3 (amended): fragment parsing splits on `&`, captures the value
of the last `access_token=` pair and the integer value of the last
`expires_in=` pair (invalid or missing value yields an absent expiry), and
returns "not found" exactly when there is no `access_token` pair or the
last such pair's value is empty; in particular
`access_token=ABC123&expires_in=3600` yields the token `ABC123` with expiry
3600. -/
theorem claim_C3_amended :
    (∀ fragment : List Char,
      tokenFromFragment fragment =
        match (splitOnChar '&' fragment).reverse.find? (listStarts markerAT) with
        | none => none
        | some p =>
          if (afterFirstEq p).isEmpty then none
          else
            some ⟨afterFirstEq p,
              match (splitOnChar '&' fragment).reverse.find? (listStarts markerEI) with
              | none => none
              | some q => pyInt (afterFirstEq q)⟩) ∧
    tokenFromFragment "access_token=ABC123&expires_in=3600".toList =
      some ⟨"ABC123".toList, some 3600⟩ :=
  ⟨fun fragment => tokenFromFragment_spec fragment, by decide⟩

/-- Claim C4: when the polling loop gets no token from the logs it falls
back to the current navigation URL; a token is produced from the URL only
if the URL's fragment (`url.split("#")[-1]`) contains `access_token=`,
in which case the fragment is parsed by the fragment-parsing algorithm,
and a URL whose fragment lacks the marker never produces a token. -/
theorem claim_C4 (url : List Char) (s : Sess) (now : Int) :
    ((urlTokenFallback url).isSome = true →
      containsSub markerAT (lastFrag url) = true) ∧
    (containsSub markerAT (lastFrag url) = true →
      urlTokenFallback url = tokenFromFragment (lastFrag url)) ∧
    (containsSub markerAT (lastFrag url) = false → urlTokenFallback url = none) ∧
    (s.closed = false → s.monitorActive = true →
      ¬(0 < s.timeout ∧ s.deadline < now) → s.driver = true →
      ((monitorStep now none url s).2 = .tokenFound ↔
        (urlTokenFallback url).isSome = true)) := by
  refine ⟨fun h => urlTokenFallback_some_marker h, ?_,
    fun h => urlTokenFallback_none h, fun hc ha ht hd => monitorStep_fallback now url s hc ha ht hd⟩
  intro h
  rcases containsSub_of_contains_frag h with ⟨hne, hcu⟩
  simp [urlTokenFallback, hne, hcu]

theorem claim_C4_witness :
    urlTokenFallback urlEx = tokenFromFragment (lastFrag urlEx) ∧
    ((monitorStep 1 none urlEx sessEx).2 = .tokenFound ↔
      (urlTokenFallback urlEx).isSome = true) :=
  ⟨(claim_C4 urlEx sessEx 1).2.1 (by decide),
   (claim_C4 urlEx sessEx 1).2.2.2 (by decide) (by decide) (by decide) (by decide)⟩

/-- Claim C5: for raw text containing the marker `access_token=`, the first
extraction step takes the substring from the (first) marker occurrence up to
the next double quote, unescapes `\\u0026`, and parses it as a query
fragment; raw text without the marker yields nothing. The extractor is a
total function (never throws) by construction. -/
theorem claim_C5 (text : List Char) :
    (containsSub markerAT text = false → extractFromText text = none) ∧
    (containsSub markerAT text = true →
      ∃ pre suf, text = pre ++ suf ∧ listStarts markerAT suf = true ∧
        (∀ p' s', text = p' ++ s' → listStarts markerAT s' = true →
          pre.length ≤ p'.length) ∧
        extractFromText text =
          tokenFromFragment (replaceAll escU0026 ['&']
            (suf.takeWhile (fun ch => decide (ch ≠ '"'))))) := by
  constructor
  · intro h
    simp [extractFromText, (pyFind_none_iff markerAT text).mpr h]
  · intro h
    cases hf : pyFind markerAT text with
    | none =>
      rw [(pyFind_none_iff markerAT text).mp hf] at h
      cases h
    | some i =>
      refine ⟨text.take i, text.drop i, (List.take_append_drop i text).symm,
        pyFind_starts hf, ?_, ?_⟩
      · intro p' s' hps hstart
        have hs' : s' = text.drop p'.length := by
          rw [hps, List.drop_left]
        have hmin := pyFind_min hf p'.length (by rw [← hs']; exact hstart)
        have hlen := pyFind_le_len hf
        simp only [List.length_take]
        omega
      · simp only [extractFromText, hf]
        rw [take_quote_eq_takeWhile]

theorem claim_C5_witness : extractFromText "no marker here".toList = none :=
  (claim_C5 "no marker here".toList).1 (by decide)

theorem dispatchEventS_id_of_no_driver (p : Payload) (t : Sess)
    (h : t.driver = false) : dispatchEventS p t = t := by
  simp only [dispatchEventS]
  repeat' split
  all_goals simp_all

/-- Claim C6: `close()` is idempotent — for any reachable session, any
number of repeated `close()` calls equals a single one, the teardown counter
advances exactly once (and not at all if the session was already closed) —
and after closing, neither frame capture, nor event dispatch, nor a polling
tick changes the session or touches the driver handle: capture yields
"unavailable", dispatch is a no-op, and the polling loop is inert. -/
theorem claim_C6 (sid user vw vh : Nat) (timeout now : Int) (ops : List SessOp)
    (n : Nat) (fd : Option (List Char)) (p : Payload) (now2 : Int)
    (lt : Option OAuthToken) (url : List Char) :
    closeS^[n + 1] (runOps sid user timeout vw vh now ops) =
      closeS (runOps sid user timeout vw vh now ops) ∧
    (closeS (runOps sid user timeout vw vh now ops)).teardownCount =
      (runOps sid user timeout vw vh now ops).teardownCount +
        (if (runOps sid user timeout vw vh now ops).closed = true then 0 else 1) ∧
    captureFrameS fd (closeS (runOps sid user timeout vw vh now ops)) =
      (closeS (runOps sid user timeout vw vh now ops), none) ∧
    dispatchEventS p (closeS (runOps sid user timeout vw vh now ops)) =
      closeS (runOps sid user timeout vw vh now ops) ∧
    monitorStep now2 lt url (closeS (runOps sid user timeout vw vh now ops)) =
      (closeS (runOps sid user timeout vw vh now ops), .inactive) := by
  have hcl := closeS_closed (runOps sid user timeout vw vh now ops)
  have hdrv : (closeS (runOps sid user timeout vw vh now ops)).driver = false := by
    by_cases hc : (runOps sid user timeout vw vh now ops).closed = true
    · rw [closeS_of_closed hc]
      exact runOps_closed_inv sid user timeout vw vh now ops hc
    · exact closeS_driver_of_open (by simpa using hc)
  exact ⟨closeS_iter _ n, closeS_teardown _, captureFrameS_of_closed fd _ hcl,
    dispatchEventS_id_of_no_driver p _ hdrv,
    monitorStep_of_stopped now2 lt url _ (Or.inl hcl)⟩

/-- Claim C7: the captured token is write-once — in every reachable session
state whose token is set, no subsequent operation (polling tick, touch,
dispatch, frame capture, close) changes the stored token. -/
theorem claim_C7 (sid user vw vh : Nat) (timeout now : Int) (ops : List SessOp)
    (tk : OAuthToken) (op : SessOp)
    (h : (runOps sid user timeout vw vh now ops).token = some tk) :
    (applySessOp op (runOps sid user timeout vw vh now ops)).token = some tk := by
  have ha := runOps_token_inv sid user timeout vw vh now ops (by rw [h]; rfl)
  rw [applySessOp_token_of_inactive op _ ha, h]

theorem claim_C7_witness :
    (applySessOp (.touch 5)
      (runOps 1 7 120 800 600 0 [SessOp.step 1 (some ⟨"TOK".toList, none⟩) []])).token =
      some ⟨"TOK".toList, none⟩ :=
  claim_C7 1 7 120 800 600 0 [SessOp.step 1 (some ⟨"TOK".toList, none⟩) []]
    ⟨"TOK".toList, none⟩ (.touch 5) (by decide)

/-- Claim C8: a gateway connection whose session id is unknown to the
registry receives exactly one message — an error carrying a message text —
and the connection is closed; no init (nor frame, token or pong) is ever
sent on it. -/
theorem claim_C8 (m : Manager) (sid : Nat) (now : Int)
    (h : getSessionM sid m = none) :
    gatewayConnect (getSessionM sid m) now =
      ([.error errSessionNotFound], true, none) ∧
    (∀ msg ∈ (gatewayConnect (getSessionM sid m) now).1,
      msg = OutMsg.error errSessionNotFound) := by
  rw [h]
  exact ⟨rfl, by intro msg hm; simpa [gatewayConnect] using hm⟩

theorem claim_C8_witness :
    gatewayConnect (getSessionM 0 (initManager ⟨120, 800, 600⟩)) 0 =
      ([.error errSessionNotFound], true, none) :=
  (claim_C8 (initManager ⟨120, 800, 600⟩) 0 0 (by decide)).1

/-- Claim C9: an inbound `ping` makes the gateway touch the session and
reply with exactly one `pong` carrying a timestamp, and changes nothing else
in the session: token, token event, driver handle, driver-access count and
lifecycle state are untouched. -/
theorem claim_C9 (s : Sess) (now : Int) (ev : List Char) :
    handleClientMessage ⟨"ping".toList, ev⟩ now s =
      ({ s with lastActivity := now }, [.pong now]) ∧
    (handleClientMessage ⟨"ping".toList, ev⟩ now s).1.token = s.token ∧
    (handleClientMessage ⟨"ping".toList, ev⟩ now s).1.tokenEvent = s.tokenEvent ∧
    (handleClientMessage ⟨"ping".toList, ev⟩ now s).1.driver = s.driver ∧
    (handleClientMessage ⟨"ping".toList, ev⟩ now s).1.driverAccessCount =
      s.driverAccessCount ∧
    (handleClientMessage ⟨"ping".toList, ev⟩ now s).1.closed = s.closed := by
  have hm : handleClientMessage ⟨"ping".toList, ev⟩ now s =
      ({ s with lastActivity := now }, [.pong now]) := by
    simp only [handleClientMessage]
    rw [if_neg (by decide), if_pos (by decide)]
    rfl
  rw [hm]
  exact ⟨rfl, rfl, rfl, rfl, rfl, rfl⟩

/-- Claim C10: with a zero or negative configured timeout the deadline check
is disabled — a polling tick never reports the timeout condition, never
sets the timed-out flag, and leaves the loop running except when it stops
because a token was captured (or the session was already stopped). -/
theorem claim_C10 (s : Sess) (now : Int) (lt : Option OAuthToken) (url : List Char)
    (h : s.timeout ≤ 0) :
    (monitorStep now lt url s).2 ≠ StepOutcome.timedOut ∧
    (monitorStep now lt url s).1.timedOut = s.timedOut ∧
    ((monitorStep now lt url s).1.monitorActive = s.monitorActive ∨
      (monitorStep now lt url s).2 = StepOutcome.tokenFound) := by
  have hnt : ¬(0 < s.timeout ∧ s.deadline < now) := by omega
  simp only [monitorStep]
  by_cases hstop : s.closed = true ∨ s.monitorActive = false
  · rw [if_pos hstop]
    exact ⟨by simp, rfl, Or.inl rfl⟩
  · rw [if_neg hstop, if_neg hnt]
    repeat' split
    all_goals simp_all [emitTokenS]

theorem claim_C10_witness :
    (monitorStep 1000000 none [] (mkSess 1 7 0 800 600 0)).2 ≠
      StepOutcome.timedOut :=
  (claim_C10 (mkSess 1 7 0 800 600 0) 1000000 none [] (by decide)).1
